import Mathlib
set_option maxRecDepth 10000

/-- ASCII digit, the JavaScript `\d` / `[0-9]` class. -/
def jsDigit (c : Char) : Bool := decide ('0' ≤ c) && decide (c ≤ '9')

/-- The JavaScript `\s` class (WhiteSpace ∪ LineTerminator), also the set
trimmed by `String.prototype.trim`. -/
def jsSpace (c : Char) : Bool :=
  c == ' ' || c == '\t' || c == '\n' || c == '\r' || c == '\u000B' || c == '\u000C' ||
  c == '\u00A0' || c == '\u1680' || (decide ('\u2000' ≤ c) && decide (c ≤ '\u200A')) ||
  c == '\u2028' || c == '\u2029' || c == '\u202F' || c == '\u205F' ||
  c == '\u3000' || c == '\uFEFF'

/-- The JavaScript word-character class `[A-Za-z0-9_]` used by `\b`. -/
def isWordCh (c : Char) : Bool :=
  (decide ('A' ≤ c) && decide (c ≤ 'Z')) || (decide ('a' ≤ c) && decide (c ≤ 'z')) ||
  jsDigit c || c == '_'

/-- ASCII alphanumeric, the `/[a-zA-Z0-9]/` test used by the line filter. -/
def isAsciiAlnum (c : Char) : Bool :=
  (decide ('A' ≤ c) && decide (c ≤ 'Z')) || (decide ('a' ≤ c) && decide (c ≤ 'z')) ||
  jsDigit c

/-- Lower-case an ASCII letter (used for case-insensitive keyword matching;
under JavaScript's non-unicode regex canonicalization a non-ASCII character
never folds onto an ASCII one). -/
def asciiLower (c : Char) : Char :=
  if decide ('A' ≤ c) && decide (c ≤ 'Z') then Char.ofNat (c.toNat + 32) else c

/-- JavaScript `String.prototype.toUpperCase`, restricted to the single-character simple
case mappings (ASCII, plus the two non-ASCII characters whose upper case is a
single ASCII letter).  Multi-character expansions such as ß → SS are not
modelled. -/
def jsToUpper (c : Char) : Char :=
  if decide ('a' ≤ c) && decide (c ≤ 'z') then Char.ofNat (c.toNat - 32)
  else if c == 'ı' then 'I'
  else if c == 'ſ' then 'S'
  else c

/-- JavaScript `String.prototype.trim`. -/
def jsTrim (l : List Char) : List Char :=
  ((l.dropWhile jsSpace).reverse.dropWhile jsSpace).reverse

/-- JavaScript `String.prototype.split` with a single-character separator
(JavaScript semantics: `"".split` gives `[""]`, adjacent separators give
empty fields). -/
def splitOnChar (sep : Char) : List Char → List (List Char)
  | [] => [[]]
  | c :: rest =>
    if c == sep then [] :: splitOnChar sep rest
    else
      match splitOnChar sep rest with
      | h :: t => (c :: h) :: t
      | [] => [[c]]

/-- JavaScript `String.prototype.lastIndexOf` for a single character (−1 if absent). -/
def lastIndexOf (c : Char) (l : List Char) : Int :=
  match l.reverse.findIdx? (fun x => x == c) with
  | some i => (l.length : Int) - 1 - i
  | none => -1

/-- JavaScript `String.prototype.replace` with a single-character pattern: replace the
first occurrence of `a` by `b`. -/
def replaceFirst (a b : Char) : List Char → List Char
  | [] => []
  | c :: rest => if c == a then b :: rest else c :: replaceFirst a b rest

/-- Decimal value of a digit string (the effect of `parseInt` on an
all-digit string). -/
def digitsToNat (ds : List Char) : Nat :=
  ds.foldl (fun n c => n * 10 + (c.toNat - '0'.toNat)) 0

/-- JavaScript `parseFloat` on the sanitized strings the parser feeds it
(characters drawn from digits, `.` and `,` only): parse a leading digit run,
then an optional `.` followed by a digit run, ignoring any malformed tail;
`NaN` (no leading number at all) is modelled as `none`. -/
def jsParseFloat (s : List Char) : Option ℚ :=
  match s.dropWhile jsDigit with
  | '.' :: rest2 =>
    if (s.takeWhile jsDigit).isEmpty && (rest2.takeWhile jsDigit).isEmpty then none
    else some (mkRat (Int.ofNat (digitsToNat (s.takeWhile jsDigit) *
        10 ^ (rest2.takeWhile jsDigit).length + digitsToNat (rest2.takeWhile jsDigit)))
      (10 ^ (rest2.takeWhile jsDigit).length))
  | _ =>
    if (s.takeWhile jsDigit).isEmpty then none
    else some (mkRat (Int.ofNat (digitsToNat (s.takeWhile jsDigit))) 1)

/-- A character kept by `parsePrice`'s sanitization `replace(/[^\d.,]/g, '')`. -/
def isPriceChar (c : Char) : Bool := jsDigit c || c == '.' || c == ','

/-- The source's `replace(/[.,]+$/, '')`: strip a trailing run of separators. -/
def stripTrailingSeps (l : List Char) : List Char :=
  (l.reverse.dropWhile (fun c => c == '.' || c == ',')).reverse

/-- The sanitization prefix of `ReceiptParser.parsePrice` (lines 26–28):
keep only digits and separators, trim, strip trailing stray separators. -/
def cleanPrice (text : List Char) : List Char :=
  stripTrailingSeps (jsTrim (text.filter isPriceChar))

/-- Source method `ReceiptParser.parsePrice` (the spec's AmountNormalizer): normalize an
ambiguous thousands/decimal-separator token and parse it. -/
def parsePrice (text : List Char) : Option ℚ :=
  let cleanText := cleanPrice text
  if cleanText.isEmpty then none
  else
    let hasComma := cleanText.contains ','
    let hasDot := cleanText.contains '.'
    let normalizedNum :=
      if hasComma && hasDot then
        -- both present: the later separator is the decimal one
        if lastIndexOf ',' cleanText > lastIndexOf '.' cleanText then
          replaceFirst ',' '.' (cleanText.filter (fun c => !(c == '.')))
        else
          cleanText.filter (fun c => !(c == ','))
      else if hasComma || hasDot then
        -- single separator kind: the three-digit rule
        let sep := if hasComma then ',' else '.'
        let parts := splitOnChar sep cleanText
        let lastPart := parts.getLastD []
        if lastPart.length == 3 then
          cleanText.filter (fun c => !(c == sep))
        else
          cleanText.map (fun c => if c == ',' then '.' else c)
      else cleanText
    jsParseFloat normalizedNum

/-- Case-insensitive (ASCII-folding) prefix test, for `/i` keyword literals. -/
def icaseLeads : List Char → List Char → Bool
  | [], _ => true
  | _ :: _, [] => false
  | w :: ws, c :: cs => (asciiLower w == asciiLower c) && icaseLeads ws cs

/-- Regex syntax: exactly the constructs appearing in the source patterns. -/
inductive RE where
  /-- a single-character class -/
  | cls (p : Char → Bool)
  /-- a literal word, matched case-insensitively (all source literals are ASCII) -/
  | istr (w : List Char)
  | seq (a b : RE)
  | alt (a b : RE)
  /-- greedy `*` over a fixed sequence of character classes (the only starred
  subpattern in the source is `(?:[.,][0-9]\x7b3\x7d)*`, a class sequence) -/
  | nstar (ps : List (Char → Bool))
  /-- greedy counted repetition of a character class (`hi = none`: unbounded) -/
  | rep (p : Char → Bool) (lo : Nat) (hi : Option Nat)
  /-- greedy `?` -/
  | opt (a : RE)
  /-- the (single) capturing group of a pattern -/
  | grp (a : RE)
  /-- word boundary `\b` -/
  | wb

/-- The capture slot of a match (the source patterns have at most one group). -/
abbrev Cap := Option (List Char)

/-- Result passed through the continuation-passing matcher: on success, the
capture together with the input remaining after the whole match. -/
abbrev MRes := Option (Cap × List Char)

/-- Last character of `l`, falling back to `prev` when `l` is empty (used to
track the character preceding the current position, for `\b`). -/
def lastOf (prev : Option Char) (l : List Char) : Option Char :=
  match l.getLast? with
  | some c => some c
  | none => prev

/-- Whether the boundary-relevant side is a word character. -/
def wordAt : Option Char → Bool
  | some c => isWordCh c
  | none => false

/-- Length of the maximal run of `p`-characters at the head of `cs`, capped
at `hi` when given: the most a greedy counted class repetition can consume. -/
def runLen (p : Char → Bool) (hi : Option Nat) (cs : List Char) : Nat :=
  match hi with
  | some h => ((cs.take h).takeWhile p).length
  | none => (cs.takeWhile p).length

/-- Greedy backtracking for a counted class repetition: try consuming `n`
characters first, then fewer, never fewer than `lo`. -/
def repTry (lo : Nat) (prev : Option Char) (cs : List Char) (cap : Cap)
    (k : Option Char → List Char → Cap → MRes) : Nat → MRes
  | 0 => if 0 < lo then none else k prev cs cap
  | n + 1 =>
    if n + 1 < lo then none
    else
      match k (lastOf prev (cs.take (n + 1))) (cs.drop (n + 1)) cap with
      | some r => some r
      | none => repTry lo prev cs cap k n

/-- Match a fixed sequence of character classes, returning the rest. -/
def classSeq : List (Char → Bool) → List Char → Option (List Char)
  | [], cs => some cs
  | _ :: _, [] => none
  | p :: ps, c :: cs => if p c then classSeq ps cs else none

/-- Greedy star over a class sequence, with backtracking on the iteration
count: try one more iteration first, fall back to stopping here.  `fuel`
bounds the iterations; the source's star body consumes four characters per
iteration, so `length + 1` is never exhausted. -/
def nstarGo (ps : List (Char → Bool)) (k : Option Char → List Char → Cap → MRes) :
    Nat → Option Char → List Char → Cap → MRes
  | 0, prev, cs, cap => k prev cs cap
  | f + 1, prev, cs, cap =>
    match classSeq ps cs with
    | none => k prev cs cap
    | some rest =>
      match nstarGo ps k f (lastOf prev (cs.take (cs.length - rest.length))) rest cap with
      | some r => some r
      | none => k prev cs cap

/-- Backtracking matcher with JavaScript regex semantics (greedy quantifiers,
left-to-right alternation), in continuation-passing style.  `prev` is the
character just before the current position (for `\b`) and `cap` the capture
recorded so far. -/
def mat : RE → Option Char → List Char → Cap →
    (Option Char → List Char → Cap → MRes) → MRes
  | .cls p, _, cs, cap, k =>
    match cs with
    | [] => none
    | c :: rest => if p c then k (some c) rest cap else none
  | .istr w, prev, cs, cap, k =>
    if icaseLeads w cs then k (lastOf prev (cs.take w.length)) (cs.drop w.length) cap
    else none
  | .seq a b, prev, cs, cap, k =>
    mat a prev cs cap (fun p2 cs2 cap2 => mat b p2 cs2 cap2 k)
  | .alt a b, prev, cs, cap, k =>
    match mat a prev cs cap k with
    | some r => some r
    | none => mat b prev cs cap k
  | .nstar ps, prev, cs, cap, k =>
    nstarGo ps k (cs.length + 1) prev cs cap
  | .rep p lo hi, prev, cs, cap, k =>
    repTry lo prev cs cap k (runLen p hi cs)
  | .opt a, prev, cs, cap, k =>
    match mat a prev cs cap k with
    | some r => some r
    | none => k prev cs cap
  | .grp a, prev, cs, cap, k =>
    mat a prev cs cap (fun p2 cs2 _ => k p2 cs2 (some (cs.take (cs.length - cs2.length))))
  | .wb, prev, cs, cap, k =>
    if wordAt prev != wordAt cs.head? then k prev cs cap else none

/-- Attempt the pattern at the current position only.  On success, returns
(matched text, capture, remaining input). -/
def execAt (r : RE) (prev : Option Char) (cs : List Char) :
    Option (List Char × Cap × List Char) :=
  match mat r prev cs none (fun _ rest cap => some (cap, rest)) with
  | some (cap, rest) => some (cs.take (cs.length - rest.length), cap, rest)
  | none => none

/-- Leftmost match: try each start position left to right, carrying the
preceding character for `\b`. -/
def search (r : RE) : Option Char → List Char → Option (List Char × Cap × List Char)
  | prev, [] => execAt r prev []
  | prev, c :: rest =>
    match execAt r prev (c :: rest) with
    | some res => some res
    | none => search r (some c) rest

/-- JavaScript `String.prototype.match` without the `g` flag (up to the fields used). -/
def firstMatch (r : RE) (cs : List Char) : Option (List Char × Cap × List Char) :=
  search r none cs

/-- Repeated non-overlapping leftmost matching, as `match` with the `g` flag:
each search resumes right after the previous match.  The source patterns never
match the empty string, so `length + 1` rounds always suffice. -/
def globalAux (r : RE) : Nat → Option Char → List Char → List (List Char)
  | 0, _, _ => []
  | f + 1, prev, cs =>
    match search r prev cs with
    | none => []
    | some (m, _, rest) => m :: globalAux r f (lastOf prev m) rest

/-- All matched substrings of `String.prototype.match` with the `g` flag. -/
def globalMatches (r : RE) (cs : List Char) : List (List Char) :=
  globalAux r (cs.length + 1) none cs

/-- Left-to-right regex alternation over a keyword list. -/
def alts : List RE → RE
  | [] => .cls (fun _ => false)
  | [r] => r
  | r :: rest => .alt r (alts rest)

/-- The date separator class matching one of `-` `/` `.` or a space. -/
def dateSep (c : Char) : Bool := c == '-' || c == '/' || c == '.' || c == ' '

/-- Source regex `/(\d{1,4}[-\/. ]\d{1,2}[-\/. ]\d{2,4})/` (line 95 of the source). -/
def dateRE : RE :=
  .grp (.seq (.rep jsDigit 1 (some 4)) (.seq (.cls dateSep)
    (.seq (.rep jsDigit 1 (some 2)) (.seq (.cls dateSep) (.rep jsDigit 2 (some 4))))))

/-- Source regex `/(\d{4})/` used by `isValidDate` (line 12 of the source). -/
def fourDigitRE : RE := .grp (.rep jsDigit 4 (some 4))

/-- The invoice token class `[A-Z0-9-]` under the `/i` flag. -/
def invTok (c : Char) : Bool :=
  (decide ('A' ≤ c) && decide (c ≤ 'Z')) || (decide ('a' ≤ c) && decide (c ≤ 'z')) ||
  jsDigit c || c == '-'

/-- The invoice separator class `[:#.]`. -/
def invSep (c : Char) : Bool := c == ':' || c == '#' || c == '.'

/-- Source regex `/(?:factura|invoice|ticket|folio|chk|numero)\s*[:#.]?\s*([A-Z0-9-]+)/i`
(line 115 of the source). -/
def invoiceRE : RE :=
  .seq (alts (["factura", "invoice", "ticket", "folio", "chk", "numero"].map
      (fun w => .istr w.data)))
    (.seq (.rep jsSpace 0 none) (.seq (.opt (.cls invSep))
      (.seq (.rep jsSpace 0 none) (.grp (.rep invTok 1 none)))))

/-- The generic grouped-or-decimal number token
`([0-9]{1,3}(?:[.,][0-9]{3})*(?:[.,][0-9]+)?)` (line 120 of the source). -/
def amtSep (c : Char) : Bool := c == '.' || c == ','

/-- See `amtSep`: the capturing number pattern itself. -/
def numRE : RE :=
  .grp (.seq (.rep jsDigit 1 (some 3))
    (.seq (.nstar [amtSep, jsDigit, jsDigit, jsDigit])
      (.opt (.seq (.cls amtSep) (.rep jsDigit 1 none)))))

/-- The `[^0-9\n]` class of the keyword-anchored amount regexes. -/
def nonDigitNL (c : Char) : Bool := !(jsDigit c) && !(c == '\n')

/-- The `[:$]` class of the keyword-anchored amount regexes. -/
def colonDollar (c : Char) : Bool := c == ':' || c == '$'

/-- The shape `keyword[^0-9\n]*[:$]?\s*NUMBER` — the shared shape of the tax, subtotal
and total regexes (lines 123, 128, 133 of the source). -/
def amountRE (kws : List String) : RE :=
  .seq (alts (kws.map (fun w => .istr w.data)))
    (.seq (.rep nonDigitNL 0 none) (.seq (.opt (.cls colonDollar))
      (.seq (.rep jsSpace 0 none) numRE)))

/-- Source regex `/(?:tax|iva|impuesto|itbms|vat)[^0-9\n]*[:$]?\s*NUM/i`. -/
def taxRE : RE := amountRE ["tax", "iva", "impuesto", "itbms", "vat"]

/-- Source regex `/(?:subtotal|sub-total)[^0-9\n]*[:$]?\s*NUM/i`. -/
def subtotalRE : RE := amountRE ["subtotal", "sub-total"]

/-- Source regex `/(?:total|pagar|amount|suma)[^0-9\n]*[:$]?\s*NUM/i`. -/
def totalRE : RE := amountRE ["total", "pagar", "amount", "suma"]

/-- Source regex `/\bNUM\b/g` used by the amount fallback (line 139 of the source). -/
def fallbackRE : RE := .seq .wb (.seq numRE .wb)

/-- Modelled from the spec: the `ReceiptData` output record (§3 of the spec);
the source file `src/types/receipt.ts` is not part of the snapshot, but the
spec fixes its shape: `rawText` always present and verbatim, every other
field independently optional. -/
structure ReceiptData where
  rawText : String
  vendorName : Option String
  date : Option String
  invoiceNumber : Option String
  amount : Option ℚ
  subtotalAmount : Option ℚ
  taxAmount : Option ℚ
  deriving DecidableEq, Repr

/-- Source method `ReceiptParser.isValidDate` (lines 9–18): first 4-digit window of the
candidate, read as a year, must lie in `[2000, currentYear + 1]`. -/
def isValidDate (currentYear : Nat) (dateStr : List Char) : Bool :=
  match firstMatch fourDigitRE dateStr with
  | some (_, some m, _) =>
    decide (2000 ≤ digitsToNat m) && decide (digitsToNat m ≤ currentYear + 1)
  | _ => false

/-- Step 1 of `parse` (lines 71–75): split into lines, trim, drop lines that
are too short or have no alphanumeric content. -/
def normLines (cs : List Char) : List (List Char) :=
  ((splitOnChar '\n' cs).map jsTrim).filter
    (fun line => decide (3 < line.length) && line.any isAsciiAlnum)

/-- The vendor exclusion list (lines 78–81). -/
def skipWords : List String :=
  ["BIENVENIDO", "WELCOME", "FACTURA", "INVOICE", "SENIAT", "DGI",
   "RUC", "RIF", "NIT", "FISCAL", "ORIGINAL", "COPIA", "CLIENTE"]

/-- Case-sensitive list prefix test. -/
def leadsWith : List Char → List Char → Bool
  | [], _ => true
  | _ :: _, [] => false
  | a :: as, b :: bs => (a == b) && leadsWith as bs

/-- Substring containment, `String.prototype.includes`. -/
def containsSub (needle : List Char) : List Char → Bool
  | [] => needle.isEmpty
  | c :: rest => leadsWith needle (c :: rest) || containsSub needle rest

/-- The test `upperLine.match(/^(CALLE|AV|JR)\.?\s/)` (line 87): an address-like line
prefix — street word, optional dot, then a whitespace character. -/
def addrStart (u : List Char) : Bool :=
  ["CALLE", "AV", "JR"].any (fun w =>
    leadsWith w.data u &&
      (match u.drop w.length with
       | '.' :: tail =>
         (match tail with
          | d :: _ => jsSpace d
          | [] => false)
       | c :: _ => jsSpace c
       | [] => false))

/-- The vendor line condition of lines 86–88. -/
def vendorOk (line : List Char) : Bool :=
  !(skipWords.any (fun w => containsSub w.data (line.map jsToUpper))) &&
  !(addrStart (line.map jsToUpper)) &&
  decide (line.length < 50)

/-- Step 2 of `parse` (lines 83–92): the first normalized line passing
`vendorOk`. -/
def vendorStep (cs : List Char) : Option String :=
  ((normLines cs).find? vendorOk).map (fun l => String.mk l)

/-- The correction `badDate.replace(/202[6-9]/, currentYear)` (line 110): replace the first
occurrence of an apparent year 2026–2029 by the current year's decimal
digits. -/
def replaceBadYear (currentYear : Nat) : List Char → List Char
  | '2' :: '0' :: '2' :: c :: rest =>
    if decide ('6' ≤ c) && decide (c ≤ '9') then (Nat.repr currentYear).data ++ rest
    else '2' :: replaceBadYear currentYear ('0' :: '2' :: c :: rest)
  | c :: rest => c :: replaceBadYear currentYear rest
  | [] => []

/-- Step 3 of `parse` (lines 94–112): first date candidate that validates,
else the first candidate with its bad year corrected, else absent. -/
def dateStep (currentYear : Nat) (cs : List Char) : Option String :=
  match (globalMatches dateRE cs).find? (fun d => isValidDate currentYear d) with
  | some d => some (String.mk d)
  | none =>
    match globalMatches dateRE cs with
    | [] => none
    | bad :: _ => some (String.mk (replaceBadYear currentYear bad))

/-- Step 4 of `parse` (lines 114–116): the captured invoice token. -/
def invoiceStep (cs : List Char) : Option String :=
  match firstMatch invoiceRE cs with
  | some (_, some cap, _) => some (String.mk cap)
  | _ => none

/-- Step 5 of `parse`, tax (lines 123–125). -/
def taxStep (cs : List Char) : Option ℚ :=
  match firstMatch taxRE cs with
  | some (_, some cap, _) => parsePrice cap
  | _ => none

/-- Step 5 of `parse`, subtotal (lines 128–130). -/
def subtotalStep (cs : List Char) : Option ℚ :=
  match firstMatch subtotalRE cs with
  | some (_, some cap, _) => parsePrice cap
  | _ => none

/-- Step 5 of `parse`, total (lines 133–135). -/
def totalStep (cs : List Char) : Option ℚ :=
  match firstMatch totalRE cs with
  | some (_, some cap, _) => parsePrice cap
  | _ => none

/-- JavaScript falsiness of the amount slot: `undefined` or `0`. -/
def jsFalsy : Option ℚ → Bool
  | none => true
  | some q => decide (q = 0)

/-- Steps 5–6 of `parse` for the total (lines 133–151): keyword-anchored
extraction, then — when the slot is still falsy — the global max-price
fallback. -/
def amountStep (cs : List Char) : Option ℚ :=
  if jsFalsy (totalStep cs) then
    match ((globalMatches fallbackRE cs).map parsePrice).reduceOption.filter
        (fun p => decide (0 < p)) with
    | [] => totalStep cs
    | p :: ps => some (ps.foldl max p)
  else totalStep cs

/-- Source method `ReceiptParser.parse` (lines 65–154), with the clock's current year as an
explicit parameter (the source reads it via `new Date()`). -/
def parse (currentYear : Nat) (rawText : String) : ReceiptData :=
  { rawText := rawText
    vendorName := vendorStep rawText.data
    date := dateStep currentYear rawText.data
    invoiceNumber := invoiceStep rawText.data
    amount := amountStep rawText.data
    subtotalAmount := subtotalStep rawText.data
    taxAmount := taxStep rawText.data }

/-- The spec's canonical sample text (§8). -/
def sampleText : String :=
  "SUPERMARKET ABC\n123 Main Street\nInvoice #INV-2024-001\nDate: 2024-01-15\nItem 1: $50.00\nItem 2: $30.00\nSubtotal: $80.00\nTax (10%): $8.00\nTOTAL: $88.00"

/-- The spec's "three-digit rule" (§4.5 step 4), stated from the spec's words:
split on the (single) separator kind; a 3-digit final segment means thousands
grouping (drop every separator occurrence), anything else means the separator
is the decimal point. -/
def threeDigitRuleSpec (sep : Char) (c : List Char) : List Char :=
  if ((splitOnChar sep c).getLastD []).length == 3 then
    c.filter (fun x => !(x == sep))
  else
    c.map (fun x => if x == sep then '.' else x)

/-- The spec's dual-separator rule (§4.5 step 3), stated from the spec's
words: the separator symbol occurring last in the cleaned string is the
decimal separator (and is written as `.`), every occurrence of the other
symbol is removed as thousands grouping. -/
def dualSepRuleSpec (c : List Char) : List Char :=
  if lastIndexOf ',' c > lastIndexOf '.' c then
    replaceFirst ',' '.' (c.filter (fun x => !(x == '.')))
  else
    replaceFirst '.' '.' (c.filter (fun x => !(x == ',')))

/-- Spec side (§4.3): the first window of four consecutive digits within a
candidate string. -/
def firstYearRun : List Char → Option (List Char)
  | [] => none
  | c :: rest =>
    if (((c :: rest).take 4).length == 4) && ((c :: rest).take 4).all jsDigit then
      some ((c :: rest).take 4)
    else firstYearRun rest

/-- Spec side (§4.3): year validation by the first 4-digit window. -/
def validYearSpec (currentYear : Nat) (d : List Char) : Bool :=
  match firstYearRun d with
  | some w => decide (2000 ≤ digitsToNat w) && decide (digitsToNat w ≤ currentYear + 1)
  | none => false

/-- Spec side (§4.3 / C5): resolution of the date field from the ordered
candidate list — first candidate whose first 4-digit window is a year in
range, else the first candidate with an apparent bad year 2026–2029
textually replaced, else absent. -/
def dateResolutionSpec (currentYear : Nat) (cands : List (List Char)) : Option String :=
  match cands.find? (fun d => validYearSpec currentYear d) with
  | some d => some (String.mk d)
  | none =>
    match cands with
    | [] => none
    | bad :: _ => some (String.mk (replaceBadYear currentYear bad))

/-- Spec side (§4.7 / C4): the fallback amount resolver — every
word-boundary-delimited number token, normalized via AmountNormalizer, with
failures and non-positive values discarded; the maximum of what remains. -/
def fallbackResolverSpec (cs : List Char) : Option ℚ :=
  (((globalMatches fallbackRE cs).filterMap parsePrice).filter
    (fun q => decide (0 < q))).max?

/-! ### Theorems -/

example : parsePrice ("1.272".data) = some 1272 := by decide

example : parsePrice ("50.00".data) = some 50 := by decide

example : parsePrice ("12,5".data) = some (mkRat 25 2) := by decide

example : parsePrice ("1.234,56".data) = some (mkRat 123456 100) := by decide

example : parsePrice ("1,234.56".data) = some (mkRat 123456 100) := by decide

example : parsePrice ("".data) = none := by decide

example : parsePrice ("abc".data) = none := by decide

example : parsePrice ("$ 88.00,".data) = some 88 := by decide

example : mkRat 25 2 = 25/2 := by rw [Rat.mkRat_eq_div]; norm_num

lemma contains_not_isEmpty {l : List Char} {a : Char} (h : l.contains a = true) :
    l.isEmpty = false := by
  cases l with
  | nil => simp [List.contains] at h
  | cons c rest => rfl

lemma replaceFirst_self (a : Char) : ∀ l : List Char, replaceFirst a a l = l
  | [] => rfl
  | c :: rest => by
    unfold replaceFirst
    by_cases h : c == a
    · rw [if_pos h]
      have : c = a := by simpa using h
      rw [this]
    · rw [if_neg h, replaceFirst_self a rest]

lemma map_if_self (a : Char) : ∀ l : List Char,
    l.map (fun x => if x == a then a else x) = l
  | [] => rfl
  | c :: rest => by
    simp only [List.map_cons, map_if_self a rest, List.cons.injEq, and_true]
    by_cases h : c == a
    · simp only [if_pos h]
      exact (by simpa using h : c = a).symm
    · simp only [if_neg h]

lemma map_of_not_mem (b : Char) (f : Char → Char) (hf : ∀ x, x ≠ b → f x = x) :
    ∀ {l : List Char}, b ∉ l → l.map f = l
  | [], _ => rfl
  | c :: rest, h => by
    rw [List.map_cons, hf c (fun e => h (e ▸ List.mem_cons_self c rest)),
      map_of_not_mem b f hf (fun hb => h (List.mem_cons_of_mem _ hb))]

lemma le_foldl_max : ∀ (ps : List ℚ) (p : ℚ), p ≤ ps.foldl max p
  | [], _ => le_refl _
  | a :: t, p => le_trans (le_max_left p a) (le_foldl_max t (max p a))

lemma mkRat_nat_nonneg (a b : Nat) : (0:ℚ) ≤ mkRat (Int.ofNat a) b :=
  Rat.mkRat_nonneg (Int.ofNat_nonneg a) b

lemma jsParseFloat_nonneg {s : List Char} {q : ℚ} (h : jsParseFloat s = some q) : 0 ≤ q := by
  unfold jsParseFloat at h
  split at h
  · split at h
    · simp at h
    · injection h with h2
      exact h2 ▸ mkRat_nat_nonneg _ _
  · split at h
    · simp at h
    · injection h with h2
      exact h2 ▸ mkRat_nat_nonneg _ _

lemma parsePrice_nonneg {t : List Char} {q : ℚ} (h : parsePrice t = some q) : 0 ≤ q := by
  simp only [parsePrice] at h
  split at h
  · simp at h
  · exact jsParseFloat_nonneg h

/-- C2: on every token whose cleaned form contains exactly one separator
symbol, AmountNormalizer follows the three-digit rule; in particular
`1.272 ↦ 1272`, `50.00 ↦ 50.00`, `12,5 ↦ 12.5`. -/
theorem three_digit_rule :
    (∀ s : List Char, ((cleanPrice s).contains ',' ≠ (cleanPrice s).contains '.') →
      parsePrice s = jsParseFloat (threeDigitRuleSpec
        (if (cleanPrice s).contains ',' then ',' else '.') (cleanPrice s))) ∧
    parsePrice ("1.272".data) = some 1272 ∧
    parsePrice ("50.00".data) = some 50 ∧
    parsePrice ("12,5".data) = some (25 / 2) := by
  refine ⟨?_, by decide, by decide, ?_⟩
  · intro s hne
    cases hc : (cleanPrice s).contains ',' <;> cases hd : (cleanPrice s).contains '.'
    · rw [hc, hd] at hne; exact absurd rfl hne
    · have hni := contains_not_isEmpty hd
      simp only [parsePrice, threeDigitRuleSpec, hc, hd, hni, Bool.false_and, Bool.false_or,
        Bool.false_eq_true, if_false, if_true]
      split
      · rfl
      · rw [map_of_not_mem ',' _ (fun x hx => by simp [hx]) (by simpa using hc), map_if_self]
    · have hni := contains_not_isEmpty hc
      simp only [parsePrice, threeDigitRuleSpec, hc, hd, hni, Bool.true_and, Bool.true_or,
        Bool.false_eq_true, if_false, if_true]
    · rw [hc, hd] at hne; exact absurd rfl hne
  · rw [show parsePrice ("12,5".data) = some (mkRat 25 2) from by decide,
      Rat.mkRat_eq_div]
    norm_num

/-- C3: on every token whose cleaned form contains both separator symbols,
AmountNormalizer treats the one occurring last as the decimal separator and
removes the other; in particular `1.234,56 ↦ 1234.56` and
`1,234.56 ↦ 1234.56`. -/
theorem dual_separator_rule :
    (∀ s : List Char, (cleanPrice s).contains ',' = true →
      (cleanPrice s).contains '.' = true →
      parsePrice s = jsParseFloat (dualSepRuleSpec (cleanPrice s))) ∧
    parsePrice ("1.234,56".data) = some (123456 / 100) ∧
    parsePrice ("1,234.56".data) = some (123456 / 100) := by
  refine ⟨?_, ?_, ?_⟩
  · intro s hc hd
    have hni := contains_not_isEmpty hc
    simp only [parsePrice, dualSepRuleSpec, hc, hd, hni, Bool.true_and,
      Bool.false_eq_true, if_false, if_true]
    split
    · rfl
    · rw [replaceFirst_self]
  · rw [show parsePrice ("1.234,56".data) = some (mkRat 123456 100) from by decide,
      Rat.mkRat_eq_div]
    norm_num
  · rw [show parsePrice ("1,234.56".data) = some (mkRat 123456 100) from by decide,
      Rat.mkRat_eq_div]
    norm_num

/-- Witness for `three_digit_rule` at the concrete token `"7,25"`. -/
theorem three_digit_rule_witness :
    parsePrice ("7,25".data) = jsParseFloat (threeDigitRuleSpec
      (if (cleanPrice ("7,25".data)).contains ',' then ',' else '.')
      (cleanPrice ("7,25".data))) :=
  three_digit_rule.1 ("7,25".data) (by decide)

/-- Witness for `dual_separator_rule` at the concrete token `"9.111,2"`. -/
theorem dual_separator_rule_witness :
    parsePrice ("9.111,2".data) = jsParseFloat (dualSepRuleSpec (cleanPrice ("9.111,2".data))) :=
  dual_separator_rule.1 ("9.111,2".data) (by decide) (by decide)

lemma takeWhile_len_le (p : Char → Bool) : ∀ l : List Char, (l.takeWhile p).length ≤ l.length
  | [] => le_refl _
  | c :: rest => by
    rw [List.takeWhile_cons]
    split
    · simpa using takeWhile_len_le p rest
    · simp

lemma takeWhile_len_eq_iff (p : Char → Bool) : ∀ l : List Char,
    ((l.takeWhile p).length = l.length ↔ l.all p = true)
  | [] => by simp
  | c :: rest => by
    rw [List.takeWhile_cons, List.all_cons]
    cases hp : p c
    · simp only [hp, Bool.false_eq_true, if_false, Bool.false_and, List.length_nil,
        List.length_cons]
      constructor
      · intro he; exact absurd he.symm (Nat.succ_ne_zero _)
      · intro he; exact absurd he (by simp)
    · simp only [hp, if_true, Bool.true_and, List.length_cons, Nat.add_right_cancel_iff]
      exact takeWhile_len_eq_iff p rest

lemma repTry_of_lt {lo n : Nat} (h : n < lo) (prev : Option Char) (cs : List Char)
    (cap : Cap) (k : Option Char → List Char → Cap → MRes) :
    repTry lo prev cs cap k n = none := by
  cases n with
  | zero => unfold repTry; rw [if_pos h]
  | succ m => unfold repTry; rw [if_pos h]

lemma repTry_succ_ge {lo n : Nat} (h : lo ≤ n + 1) (prev : Option Char) (cs : List Char)
    (cap : Cap) (k : Option Char → List Char → Cap → MRes) :
    repTry lo prev cs cap k (n + 1) =
      match k (lastOf prev (cs.take (n + 1))) (cs.drop (n + 1)) cap with
      | some r => some r
      | none => repTry lo prev cs cap k n := by
  conv_lhs => rw [repTry]
  rw [if_neg (by omega)]

lemma runLen_some_le (p : Char → Bool) (h : Nat) (cs : List Char) :
    runLen p (some h) cs ≤ h := by
  unfold runLen
  exact le_trans (takeWhile_len_le _ _) (by rw [List.length_take]; exact min_le_left _ _)

lemma execAt_four (prev : Option Char) (cs : List Char) :
    execAt fourDigitRE prev cs =
      if 4 ≤ runLen jsDigit (some 4) cs then
        some (cs.take 4, some (cs.take 4), cs.drop 4)
      else none := by
  have hle : runLen jsDigit (some 4) cs ≤ 4 := runLen_some_le _ _ _
  unfold execAt fourDigitRE
  simp only [mat]
  by_cases h : 4 ≤ runLen jsDigit (some 4) cs
  · have h4 : runLen jsDigit (some 4) cs = 4 := le_antisymm hle h
    have hlen : 4 ≤ cs.length := by
      have h5 : runLen jsDigit (some 4) cs ≤ (cs.take 4).length := by
        unfold runLen; exact takeWhile_len_le _ _
      rw [List.length_take] at h5
      exact le_trans h (le_trans h5 (min_le_right _ _))
    have hd : cs.length - (cs.drop 4).length = 4 := by rw [List.length_drop]; omega
    have hd2 : cs.length - (cs.length - 4) = 4 := by omega
    rw [h4, show (4:Nat) = 3 + 1 from rfl, repTry_succ_ge (by omega)]
    simp [List.length_drop, hd2, show (3:Nat) + 1 = 4 from rfl]
  · rw [repTry_of_lt (by omega), if_neg h]

lemma runLen_some (p : Char → Bool) (h : Nat) (cs : List Char) :
    runLen p (some h) cs = ((cs.take h).takeWhile p).length := rfl

lemma four_le_runLen_iff (cs : List Char) :
    4 ≤ runLen jsDigit (some 4) cs ↔
      ((((cs.take 4).length == 4) && (cs.take 4).all jsDigit) = true) := by
  rw [runLen_some]
  have h1 := takeWhile_len_le jsDigit (cs.take 4)
  have h2 : (cs.take 4).length ≤ 4 := by
    rw [List.length_take]; exact min_le_left _ _
  constructor
  · intro h
    have he : ((cs.take 4).takeWhile jsDigit).length = (cs.take 4).length := by omega
    have ha := (takeWhile_len_eq_iff jsDigit (cs.take 4)).1 he
    simp only [Bool.and_eq_true, beq_iff_eq]
    exact ⟨by omega, ha⟩
  · intro h
    simp only [Bool.and_eq_true, beq_iff_eq] at h
    have := (takeWhile_len_eq_iff jsDigit (cs.take 4)).2 h.2
    omega

lemma search_four_cap : ∀ (cs : List Char) (prev : Option Char),
    (match search fourDigitRE prev cs with
     | some (_, cap, _) => cap
     | none => none) = firstYearRun cs
  | [], prev => by
    rw [search, execAt_four]
    rw [if_neg (by unfold runLen; simp)]
    rfl
  | c :: rest, prev => by
    rw [search, execAt_four]
    by_cases h : 4 ≤ runLen jsDigit (some 4) (c :: rest)
    · rw [if_pos h]
      unfold firstYearRun
      rw [if_pos ((four_le_runLen_iff (c :: rest)).1 h)]
    · rw [if_neg h]
      unfold firstYearRun
      rw [if_neg (fun hc => h ((four_le_runLen_iff (c :: rest)).2 hc))]
      exact search_four_cap rest (some c)

lemma isValidDate_eq (cy : Nat) (d : List Char) : isValidDate cy d = validYearSpec cy d := by
  unfold isValidDate validYearSpec firstMatch
  have h := search_four_cap d none
  cases hs : search fourDigitRE none d with
  | none => rw [hs] at h; rw [← h]
  | some t =>
    obtain ⟨full, cap, rest⟩ := t
    rw [hs] at h
    cases cap with
    | none => rw [← h]
    | some m => rw [← h]

/-- C5: the date field equals the spec-side resolution of the date-pattern
candidates found in the raw text. -/
theorem date_resolution (cy : Nat) (s : String) :
    (parse cy s).date = dateResolutionSpec cy (globalMatches dateRE s.data) := by
  show dateStep cy s.data = _
  unfold dateStep dateResolutionSpec
  rw [show (fun d => isValidDate cy d) = (fun d => validYearSpec cy d) from
    funext (isValidDate_eq cy)]

/-- C4 (amended): the amount field comes from the keyword-anchored total
extractor; the fallback resolver overrides it exactly when that result is
JavaScript-falsy (absent or zero), and only when it finds at least one
positive value. -/
theorem amount_resolution (cy : Nat) (s : String) :
    (parse cy s).amount =
      if jsFalsy (totalStep s.data) then
        match fallbackResolverSpec s.data with
        | some m => some m
        | none => totalStep s.data
      else totalStep s.data := by
  show amountStep s.data = _
  have hro : ((globalMatches fallbackRE s.data).map parsePrice).reduceOption
      = (globalMatches fallbackRE s.data).filterMap parsePrice := by
    rw [List.reduceOption, List.filterMap_map]; rfl
  unfold amountStep fallbackResolverSpec
  rw [hro]
  by_cases hf : jsFalsy (totalStep s.data) = true
  case neg => rw [if_neg hf, if_neg hf]
  case pos =>
    rw [if_pos hf, if_pos hf]
    cases hl : ((globalMatches fallbackRE s.data).filterMap parsePrice).filter
        (fun q => decide (0 < q)) with
    | nil => simp [List.max?]
    | cons p ps => simp [List.max?]

/-- C4 counterexample: on `"total 0\n9"` the total extractor finds the token
`"0"` (amount 0), yet the fallback still runs — 0 is JavaScript-falsy — and
overrides the amount with the maximum positive token 9, although the claim
says the fallback runs only when the extractor found nothing. -/
theorem fallback_runs_after_zero_total :
    totalStep ("total 0\n9".data) = some 0 ∧
    (parse 2025 "total 0\n9").amount = some 9 := ⟨by decide, by decide⟩

/-- C6 counterexample: the source's exclusion list carries the Spanish
tokens COPIA and CLIENTE, not the claim's COPY and CUSTOMER, so a first line
"CUSTOMER COPY" is selected as vendor instead of the next qualifying line. -/
theorem vendor_exclusion_claim_false :
    (parse 2025 "CUSTOMER COPY\nACME STORE").vendorName ≠ some "ACME STORE" ∧
    (parse 2025 "CUSTOMER COPY\nACME STORE").vendorName = some "CUSTOMER COPY" :=
  ⟨by decide, by decide⟩

/-- C6 (amended): vendorName is the first normalized line that contains no
token of the source's exclusion list (BIENVENIDO, WELCOME, FACTURA, INVOICE,
SENIAT, DGI, RUC, RIF, NIT, FISCAL, ORIGINAL, COPIA, CLIENTE), does not start
with a street abbreviation, and is shorter than 50 characters; a document
starting with "FACTURA ORIGINAL" selects the next qualifying line. -/
theorem vendor_selection :
    (∀ (cy : Nat) (s : String),
      (parse cy s).vendorName =
        ((normLines s.data).find? vendorOk).map (fun l => String.mk l)) ∧
    (parse 2025 "FACTURA ORIGINAL\nACME STORE").vendorName = some "ACME STORE" :=
  ⟨fun _ _ => rfl, by decide⟩

/-- C7 counterexample: "receipt" is not among the source's keyword aliases
(factura, invoice, ticket, folio, chk, numero), so "Receipt: R-123" yields
no invoice number, contradicting the claim. -/
theorem receipt_alias_claim_false :
    (parse 2025 "Receipt: R-123").invoiceNumber = none := by decide

/-- C7 (amended): invoiceNumber is the token captured by the first match of
an alias from factura/invoice/ticket/folio/chk/numero (case-insensitively),
an optional separator, and a token of letters, digits and hyphens; neither
"receipt" nor "number" is an alias. -/
theorem invoice_extraction :
    (∀ (cy : Nat) (s : String),
      (parse cy s).invoiceNumber =
        match firstMatch invoiceRE s.data with
        | some (_, some cap, _) => some (String.mk cap)
        | _ => none) ∧
    (∀ cy : Nat, (parse cy "Invoice #ABC-123").invoiceNumber = some "ABC-123") ∧
    (∀ cy : Nat, (parse cy "Ticket: T-9").invoiceNumber = some "T-9") ∧
    (∀ cy : Nat, (parse cy "chk 778").invoiceNumber = some "778") ∧
    (∀ cy : Nat, (parse cy "Receipt R-9 Number 5").invoiceNumber = none) :=
  ⟨fun _ _ => rfl, fun _ => rfl, fun _ => rfl, fun _ => rfl, fun _ => rfl⟩

/-- C8: `parse` is a total function that preserves its input verbatim in
`rawText`; on the empty string every optional field is absent. -/
theorem parse_total_on_empty :
    (∀ (cy : Nat) (s : String), (parse cy s).rawText = s) ∧
    (∀ cy : Nat, parse cy "" =
      { rawText := "", vendorName := none, date := none, invoiceNumber := none,
        amount := none, subtotalAmount := none, taxAmount := none }) :=
  ⟨fun _ _ => rfl, fun _ => rfl⟩

/-- C9: `parse` is deterministic — it is a pure function of the input text
and the clock's current year (modelled as the explicit first argument), so
two calls with the same input yield identical records. -/
theorem parse_deterministic :
    ∀ (cy : Nat) (s : String), parse cy s = parse cy s := fun _ _ => rfl

lemma taxStep_nonneg {cs : List Char} {q : ℚ} (h : taxStep cs = some q) : 0 ≤ q := by
  unfold taxStep at h
  split at h
  · exact parsePrice_nonneg h
  · simp at h

lemma subtotalStep_nonneg {cs : List Char} {q : ℚ} (h : subtotalStep cs = some q) : 0 ≤ q := by
  unfold subtotalStep at h
  split at h
  · exact parsePrice_nonneg h
  · simp at h

lemma totalStep_nonneg {cs : List Char} {q : ℚ} (h : totalStep cs = some q) : 0 ≤ q := by
  unfold totalStep at h
  split at h
  · exact parsePrice_nonneg h
  · simp at h

lemma amountStep_fallback_pos {cs : List Char} {q : ℚ}
    (h : amountStep cs = some q) (hne : totalStep cs ≠ some q) : 0 < q := by
  unfold amountStep at h
  split at h
  · split at h
    · exact absurd h hne
    · next p ps heq =>
      have hp : 0 < p := by
        have hm : p ∈ ((globalMatches fallbackRE cs).map parsePrice).reduceOption.filter
            (fun x => decide (0 < x)) := by
          rw [heq]; exact List.mem_cons_self p ps
        have := List.of_mem_filter hm
        simpa using this
      injection h with h2
      exact h2 ▸ lt_of_lt_of_le hp (le_foldl_max ps p)
  · exact absurd h hne

lemma amountStep_nonneg {cs : List Char} {q : ℚ} (h : amountStep cs = some q) : 0 ≤ q := by
  by_cases he : totalStep cs = some q
  · exact totalStep_nonneg he
  · exact le_of_lt (amountStep_fallback_pos h he)

/-- C10: every numeric field of the result, when present, is non-negative
(the sanitization never lets a minus sign through), and an amount that does
not come from the keyword-anchored total extractor — i.e. was set by the
fallback resolver — is strictly positive. -/
theorem amount_fields_nonneg (cy : Nat) (s : String) (q : ℚ) :
    (((parse cy s).amount = some q ∨ (parse cy s).subtotalAmount = some q ∨
        (parse cy s).taxAmount = some q) → 0 ≤ q) ∧
    ((parse cy s).amount = some q → totalStep s.data ≠ some q → 0 < q) := by
  constructor
  · rintro (h | h | h)
    · exact amountStep_nonneg h
    · exact subtotalStep_nonneg h
    · exact taxStep_nonneg h
  · intro h hne
    exact amountStep_fallback_pos h hne

/-- Witness for `amount_fields_nonneg` on the concrete text `"tax 5"`. -/
theorem amount_fields_nonneg_witness : (0:ℚ) ≤ 5 ∧ (0:ℚ) < 5 :=
  ⟨(amount_fields_nonneg 2025 "tax 5" 5).1 (Or.inr (Or.inr (by decide))),
   (amount_fields_nonneg 2025 "tax 5" 5).2 (by decide) (by decide)⟩

/-- C1 counterexample: on the canonical sample the tax regex captures the
"10" of "Tax (10%)" (its `[^0-9\n]*` stops at the first digit on the line),
and the total regex first matches the "total" inside "Subtotal", so
taxAmount is 10 (not 8.00) and amount is 80.00 (not 88.00). -/
theorem canonical_sample_claim_false :
    ¬ ((parse 2025 sampleText).taxAmount = some 8 ∧
       (parse 2025 sampleText).amount = some 88) := by decide

/-- C1 (amended): on the canonical sample, for any clock year from 2023 on,
parse returns vendorName "SUPERMARKET ABC", date "2024-01-15", invoiceNumber
"INV-2024-001", subtotalAmount 80.00 — but amount 80.00 (the total keyword
first matches inside "Subtotal") and taxAmount 10 (captured from "(10%)"). -/
theorem canonical_sample_parse (cy : Nat) (h : 2023 ≤ cy) :
    parse cy sampleText =
      { rawText := sampleText, vendorName := some "SUPERMARKET ABC",
        date := some "2024-01-15", invoiceNumber := some "INV-2024-001",
        amount := some 80, subtotalAmount := some 80, taxAmount := some 10 } := by
  have hv : isValidDate cy ("2024-01-15".data) = true := by
    show (decide (2000 ≤ digitsToNat ("2024".data)) &&
      decide (digitsToNat ("2024".data) ≤ cy + 1)) = true
    rw [show digitsToNat ("2024".data) = 2024 from by decide]
    simp only [Bool.and_eq_true, decide_eq_true_eq]
    exact ⟨by omega, by omega⟩
  have hd : dateStep cy sampleText.data = some "2024-01-15" := by
    unfold dateStep
    rw [show globalMatches dateRE sampleText.data = ["2024-01-15".data] from by decide]
    simp only [List.find?_cons, hv]
  unfold parse
  rw [hd]
  decide

/-- Witness for `canonical_sample_parse` at the clock year 2025. -/
theorem canonical_sample_parse_witness :
    2023 ≤ 2025 ∧ parse 2025 sampleText =
      { rawText := sampleText, vendorName := some "SUPERMARKET ABC",
        date := some "2024-01-15", invoiceNumber := some "INV-2024-001",
        amount := some 80, subtotalAmount := some 80, taxAmount := some 10 } :=
  ⟨by omega, canonical_sample_parse 2025 (by omega)⟩
